import Mathlib

set_option maxRecDepth 1000000

/-!
Verification development for the byte-to-image container codec in
`audio_base64.py` (functions `apply_delta_encoding_optimized`,
`apply_delta_decoding`, `apply_png_filter`, `find_best_filter`,
`compress_with_best_algorithm`, `bytes_to_png_data`, `manual_png_decode`,
`png_data_to_bytes`).

Modelling conventions:
- A Python `bytes` value is a `List Nat` whose elements are byte values;
  every arithmetic step that the source masks with `& 0xFF` is modelled with
  an explicit `% 256` (via `sub8` / `add8`).
- The external compression collaborators (`zlib.compress`, `zlib.decompress`,
  `brotli.compress`, `brotli.decompress`) are parameters of the embedded
  functions: compressors are total functions `List Nat → List Nat` (or
  `Option (List Nat)` where the source wraps the call in `try/except`),
  decompressors are `List Nat → Except String (List Nat)` since
  decompression of malformed input raises.
- Python exceptions are modelled with `Except String`; the exact message
  text is irrelevant, short German tags from the source are kept.
- `zlib.crc32` is implemented exactly (reflected CRC-32, polynomial
  0xEDB88320, init/xorout 0xFFFFFFFF).
- The chunk-walking loop of `manual_png_decode` advances `pos` by at least
  12 per iteration and only iterates while `pos < len(png_data)`, so it
  performs at most `len(png_data)` iterations; it is modelled with a fuel
  argument initialised to `png.length`, which therefore never runs out
  before the loop condition fails.
-/

/-- Byte subtraction with 8-bit wraparound: Python `(a - b) & 0xFF` on ints. -/
def sub8 (a b : Nat) : Nat := (((a : Int) - (b : Int)) % 256).toNat

/-- Byte addition with 8-bit wraparound: Python `(a + b) & 0xFF`. -/
def add8 (a b : Nat) : Nat := (a + b) % 256

/-- One bit step of the reflected CRC-32 computation. -/
def crcStep (c : Nat) : Nat :=
  if c % 2 = 1 then Nat.xor (c / 2) 0xEDB88320 else c / 2

/-- Eight bit steps of the reflected CRC-32 computation (one byte). -/
def crcStep8 (c : Nat) : Nat :=
  crcStep (crcStep (crcStep (crcStep (crcStep (crcStep (crcStep (crcStep c)))))))

/-- `zlib.crc32(data) & 0xFFFFFFFF`: standard reflected CRC-32. -/
def crc32 (l : List Nat) : Nat :=
  Nat.xor (l.foldl (fun c b => crcStep8 (Nat.xor c (b % 256))) 0xFFFFFFFF) 0xFFFFFFFF

/-- `struct.pack('>I', n)`: four big-endian bytes. -/
def be4 (n : Nat) : List Nat :=
  [n / 16777216 % 256, n / 65536 % 256, n / 256 % 256, n % 256]

/-- `struct.pack('<I', n)`: four little-endian bytes. -/
def le4 (n : Nat) : List Nat :=
  [n % 256, n / 256 % 256, n / 65536 % 256, n / 16777216 % 256]

/-- `struct.pack('<Q', n)`: eight little-endian bytes. -/
def le8 (n : Nat) : List Nat :=
  [n % 256, n / 256 % 256, n / 65536 % 256, n / 16777216 % 256,
   n / 4294967296 % 256, n / 1099511627776 % 256,
   n / 281474976710656 % 256, n / 72057594037927936 % 256]

/-- Python slice `l[a:b]` for `0 ≤ a ≤ b` (clamped, never raises). -/
def sliceL (l : List Nat) (a b : Nat) : List Nat := (l.take b).drop a

/-- `struct.unpack('>I', l[pos:pos+4])`: `none` models `struct.error` on a
short slice. -/
def readBE32 (l : List Nat) (pos : Nat) : Option Nat :=
  match sliceL l pos (pos + 4) with
  | [a, b, c, d] => some (((a * 256 + b) * 256 + c) * 256 + d)
  | _ => none

/-- `struct.unpack('<Q', data[0:8])[0]` read at `pos`; total because every
call site has already checked that at least 15 bytes are present. -/
def readLE64 (l : List Nat) (pos : Nat) : Nat :=
  l.getD pos 0 + l.getD (pos+1) 0 * 256 + l.getD (pos+2) 0 * 65536 +
  l.getD (pos+3) 0 * 16777216 + l.getD (pos+4) 0 * 4294967296 +
  l.getD (pos+5) 0 * 1099511627776 + l.getD (pos+6) 0 * 281474976710656 +
  l.getD (pos+7) 0 * 72057594037927936

/-- `struct.unpack('<I', data[pos:pos+4])[0]`; total, same remark as
`readLE64`. -/
def readLE32 (l : List Nat) (pos : Nat) : Nat :=
  l.getD pos 0 + l.getD (pos+1) 0 * 256 + l.getD (pos+2) 0 * 65536 +
  l.getD (pos+3) 0 * 16777216

/-! ### Delta pre-filter (source lines 190-230) -/

/-- Loop body of `apply_delta_encoding_optimized`: emits
`(data[i] - data[i-1]) & 0xFF` for each element, carrying the previous
original byte. -/
def deltaEncGo (prev : Nat) : List Nat → List Nat
  | [] => []
  | x :: xs => sub8 x prev :: deltaEncGo x xs

/-- `apply_delta_encoding_optimized(data)` (lines 190-210). -/
def apply_delta_encoding_optimized (data : List Nat) : List Nat :=
  if data.length ≤ 1 then data
  else
    match data with
    | [] => []
    | d0 :: rest => d0 :: deltaEncGo d0 rest

/-- Loop body of `apply_delta_decoding`: emits
`(result[i-1] + data[i]) & 0xFF`, carrying the previous reconstructed
byte. -/
def deltaDecGo (prev : Nat) : List Nat → List Nat
  | [] => []
  | x :: xs => add8 prev x :: deltaDecGo (add8 prev x) xs

/-- `apply_delta_decoding(data)` (lines 213-230). -/
def apply_delta_decoding (data : List Nat) : List Nat :=
  if data.length ≤ 1 then data
  else
    match data with
    | [] => []
    | d0 :: rest => d0 :: deltaDecGo d0 rest

/-! ### PNG row filters (source lines 233-303) -/

/-- `apply_png_filter(row_data, prev_row, filter_type)` (lines 233-303).
Each branch is the direct transcription of the corresponding Python loop;
note that the source's Sub branch (lines 257-262) writes the literal filter
byte `0`, not `1`. -/
def apply_png_filter (row prev : List Nat) (t : Nat) : List Nat :=
  if t = 0 then
    0 :: row
  else if t = 1 then
    0 :: (List.range row.length).map (fun i =>
      sub8 (row.getD i 0) (if 0 < i then row.getD (i-1) 0 else 0))
  else if t = 2 then
    2 :: (List.range row.length).map (fun i =>
      sub8 (row.getD i 0) (if i < prev.length then prev.getD i 0 else 0))
  else if t = 3 then
    3 :: (List.range row.length).map (fun i =>
      sub8 (row.getD i 0)
        (((if 0 < i then row.getD (i-1) 0 else 0) +
          (if i < prev.length then prev.getD i 0 else 0)) / 2))
  else if t = 4 then
    4 :: (List.range row.length).map (fun i =>
      let left := if 0 < i then row.getD (i-1) 0 else 0
      let up := if i < prev.length then prev.getD i 0 else 0
      let upleft := if 0 < i ∧ i < prev.length then prev.getD (i-1) 0 else 0
      let p : Int := (left : Int) + (up : Int) - (upleft : Int)
      let pa := (p - left).natAbs
      let pb := (p - up).natAbs
      let pc := (p - upleft).natAbs
      sub8 (row.getD i 0)
        (if pa ≤ pb ∧ pa ≤ pc then left else if pb ≤ pc then up else upleft))
  else
    t :: row

/-! ### Adaptive filter search (source lines 306-333) -/

/-- One iteration of the `find_best_filter` loop. The accumulator is
`(best_type, best_size, best_filtered)` with `best_size = none` standing for
the initial `float('inf')` and `best_filtered = none` for the initial
`None`. The trial compressor `cf` models `zlib.compress`, which is total on
bytes, so the source's `except: continue` branch is dead. -/
def fbfStep (cf : List Nat → List Nat) (row prev : List Nat)
    (acc : Nat × Option Nat × Option (List Nat)) (t : Nat) :
    Nat × Option Nat × Option (List Nat) :=
  match acc.2.1 with
  | none => (t, some (cf (apply_png_filter row prev t)).length,
             some (apply_png_filter row prev t))
  | some bs =>
      if (cf (apply_png_filter row prev t)).length < bs then
        (t, some (cf (apply_png_filter row prev t)).length,
         some (apply_png_filter row prev t))
      else acc

/-- `find_best_filter(row_data, prev_row, compression_func)`
(lines 306-333). -/
def find_best_filter (cf : List Nat → List Nat) (row prev : List Nat) :
    Nat × Option Nat × Option (List Nat) :=
  [0, 1, 2, 3, 4].foldl (fbfStep cf row prev) (0, none, none)

/-! ### Compression negotiator (source lines 336-378) -/

/-- `HAS_BROTLI` (lines 14-17): the `try` block follows an unconditional
`import brotli`, so whenever the module loads at all this flag is `True`. -/
def HAS_BROTLI : Bool := true

/-- `compress_with_best_algorithm(data, file_type)` (lines 336-378).
The two backends are parameters: `bcmp` models
`brotli.compress(data, quality=11)` and `zcmp` models
`zlib.compress(data, 9)`; a `none` result models the backend raising (its
`except: pass`). The intermediate state is
`(best_data, best_size, best_type)` with `none` sizes for `float('inf')`. -/
def compress_with_best_algorithm (bcmp zcmp : List Nat → Option (List Nat))
    (data : List Nat) (ft : String) : Option (List Nat) × Nat :=
  if ft = "mp3" then (some data, 255)
  else
    let s1 : Option (List Nat) × Option Nat × Nat :=
      if HAS_BROTLI then
        match bcmp data with
        | some c => (some c, some c.length, 1)
        | none => (none, none, 0)
      else (none, none, 0)
    let s2 : Option (List Nat) × Option Nat × Nat :=
      match zcmp data with
      | some c =>
          match s1.2.1 with
          | none => (some c, some c.length, 0)
          | some bs => if c.length < bs then (some c, some c.length, 0) else s1
      | none => s1
    (s2.1, s2.2.2)

/-! ### Encoder (source lines 381-551) -/

/-- PNG signature `b'\x89PNG\r\n\x1a\n'` (line 456). -/
def pngSignature : List Nat := [137, 80, 78, 71, 13, 10, 26, 10]

/-- Chunk tag `b'IHDR'`. -/
def ihdrTag : List Nat := [73, 72, 68, 82]

/-- Chunk tag `b'IDAT'`. -/
def idatTag : List Nat := [73, 68, 65, 84]

/-- Chunk tag `b'IEND'`. -/
def iendTag : List Nat := [73, 69, 78, 68]

/-- `struct.pack('>IIBBBBB', width, height, 8, colorType, 0, 0, 0)`. -/
def ihdrData (w h ct : Nat) : List Nat := be4 w ++ be4 h ++ [8, ct, 0, 0, 0]

/-- The container layout the encoder emits (lines 455-459, 503-511,
524-549): signature, IHDR chunk, one IDAT chunk with `body` and the given
4-byte `trailer`, IEND chunk. The encoder always passes the correct CRC-32
trailer; keeping it a parameter lets theorems speak about containers whose
data-chunk trailer was altered. -/
def assemblePngT (w h ct : Nat) (body trailer : List Nat) : List Nat :=
  pngSignature ++
  (be4 13 ++ ihdrTag ++ ihdrData w h ct ++
    be4 (crc32 (ihdrTag ++ ihdrData w h ct))) ++
  (be4 body.length ++ idatTag ++ body ++ trailer) ++
  (be4 0 ++ iendTag ++ be4 (crc32 iendTag))

/-- Lines 407-421 of `bytes_to_png_data`: optional delta for WAV, negotiated
compression, then the embedded header
`[length (8 LE)][checksum (4 LE)][color][compression][interleaved]`
concatenated with the compressed body. Note `original_length` and the
checksum are computed from `audio_data` AFTER the delta reassignment of
line 409. The `.getD []` on the negotiator's `best_data` is reachable only
if the zlib backend fails, which the total `zc` rules out. -/
def framedPayload (bcmp : List Nat → Option (List Nat))
    (zc : List Nat → List Nat) (audio : List Nat)
    (color : Bool) (ft : String) (inter : Bool) : List Nat :=
  let audio1 := if ft = "wav" then apply_delta_encoding_optimized audio else audio
  let res := compress_with_best_algorithm bcmp (fun d => some (zc d)) audio1 ft
  le8 audio1.length ++ le4 (crc32 audio1) ++
  [if color then 1 else 0, res.2, if inter then 1 else 0] ++ res.1.getD []

/-- Lines 430-471: the RGB-interleaved packing. The byte stream is split by
position modulo 3 into three zero-padded channel buffers of
`ceil(len/3)` bytes each, and the three channels are filtered as three
rows (the `for channel_data in channels` loop is unrolled; `prev_row`
carries the previous unfiltered channel). -/
def interleavedRaw (zc : List Nat → List Nat) (d : List Nat) : List Nat :=
  let ppc := (d.length + 3 - 1) / 3
  let r := (List.range ppc).map (fun k => d.getD (3*k) 0)
  let g := (List.range ppc).map (fun k => d.getD (3*k+1) 0)
  let b := (List.range ppc).map (fun k => d.getD (3*k+2) 0)
  let padc := fun (c : List Nat) =>
    if c.length < ppc then c ++ List.replicate (ppc - c.length) 0 else c
  let row1 := ((padc r).take ppc)
  let row2 := ((padc g).take ppc)
  let row3 := ((padc b).take ppc)
  (find_best_filter zc row1 []).2.2.getD [] ++
  (find_best_filter zc row2 row1).2.2.getD [] ++
  (find_best_filter zc row3 row2).2.2.getD []

/-- The per-row filtering loop of the grayscale branch (lines 529-540) and
of the plain-RGB branch (lines 488-500): `rowBytes` is `width` for
grayscale and `width * 3` for RGB. The loop runs exactly `height` times,
which is the fuel (first argument). -/
def filteredRows (zc : List Nat → List Nat) (pixels : List Nat)
    (rowBytes : Nat) : Nat → Nat → List Nat → List Nat
  | 0, _, _ => []
  | k + 1, r, prev =>
      (find_best_filter zc (sliceL pixels (r*rowBytes) (r*rowBytes + rowBytes))
        prev).2.2.getD [] ++
      filteredRows zc pixels rowBytes k (r+1)
        (sliceL pixels (r*rowBytes) (r*rowBytes + rowBytes))

/-- `bytes_to_png_data(audio_data, color, file_type, use_rgb_interleaved)`
(lines 381-551), returning the PNG byte stream and `(width, height)`.
`bcmp` is the brotli backend, `zc` is `zlib.compress(·, 9)` (used both as
the per-row trial compressor and as the IDAT stream compressor, as in the
source). -/
def bytes_to_png_data (bcmp : List Nat → Option (List Nat))
    (zc : List Nat → List Nat) (audio : List Nat)
    (color : Bool) (ft : String) (inter : Bool) : List Nat × Nat × Nat :=
  let d := framedPayload bcmp zc audio color ft inter
  if color then
    if inter then
      let ppc := (d.length + 3 - 1) / 3
      let body := zc (interleavedRaw zc d)
      (assemblePngT ppc 3 0 body (be4 (crc32 (idatTag ++ body))), ppc, 3)
    else
      let tp := (d.length + 3 - 1) / 3
      let width := min 1024 tp
      let height := (tp + width - 1) / width
      let pixels := d ++ List.replicate (width * height * 3 - d.length) 0
      let body := zc (filteredRows zc pixels (width*3) height 0 [])
      (assemblePngT width height 2 body (be4 (crc32 (idatTag ++ body))),
       width, height)
  else
    let total := d.length
    let width := min 1024 total
    let height := (total + width - 1) / width
    let pixels := d ++ List.replicate (width * height - total) 0
    let body := zc (filteredRows zc pixels width height 0 [])
    (assemblePngT width height 0 body (be4 (crc32 (idatTag ++ body))),
     width, height)

/-! ### Decoder (source lines 554-768) -/

/-- Inner loop of the row extraction (lines 710-719): for `j` in
`range(width)` read `row_data[j*3]` (RGB), `row_data[j*4]` (RGBA) or
`row_data[j]` (grayscale); an out-of-range index is Python's `IndexError`,
modelled by `none`. -/
def extractRow (row_data : List Nat) (w ct : Nat) : Option (List Nat) :=
  (List.range w).mapM (fun j =>
    row_data.get? (if ct = 2 then 3*j else if ct = 6 then 4*j else j))

/-- Row extraction of `manual_png_decode` (lines 703-719): strips the
per-row filter byte and concatenates the first channel of every pixel; NO
filter is reversed and no de-interleaving happens here. `ers` is
`expected_row_size = width * bytes_per_pixel`. -/
def extractRows (raw : List Nat) (w h ct ers : Nat) : Option (List Nat) :=
  ((List.range h).mapM (fun i =>
    extractRow (sliceL raw (i*(ers+1)+1) (i*(ers+1)+1+ers)) w ct)).map
    List.join

/-- Lines 721-761 (identical to lines 610-649 of the pypng path): parse the
embedded header from the extracted bytes, slice the body, dispatch on the
recorded compression id (`zd` = `zlib.decompress`, `bd` =
`brotli.decompress`), delta-decode when the reconstruction is longer than
the declared length, truncate, check length and CRC-32. The source also
reads `color_mode = data[12]` and `rgb_interleaved = data[14]` but never
uses either value. -/
def decodeFramedPayload (zd bd : List Nat → Except String (List Nat))
    (data : List Nat) : Except String (List Nat) :=
  if data.length < 15 then Except.error "Daten sind zu kurz fuer Header"
  else
    let len := readLE64 data 0
    let cks := readLE32 data 8
    let ctype := data.getD 13 0
    let ca := sliceL data 15 (15 + len)
    let audioE : Except String (List Nat) :=
      if ctype = 255 then Except.ok ca
      else if ctype = 1 then
        if HAS_BROTLI then bd ca
        else Except.error "brotli nicht verfuegbar"
      else zd ca
    match audioE with
    | Except.error e => Except.error e
    | Except.ok audio0 =>
        let audio1 := if len < audio0.length then apply_delta_decoding audio0
                      else audio0
        let audio2 := audio1.take len
        if audio2.length ≠ len then Except.error "Laengenkollision"
        else if crc32 audio2 ≠ cks then Except.error "Pruefsummenfehler"
        else Except.ok audio2

/-- IDAT-chunk processing of `manual_png_decode` (lines 686-761):
`bytes_per_pixel` from the color type, row extraction, then the embedded
payload decode. -/
def processIdat (zd bd : List Nat → Except String (List Nat))
    (raw : List Nat) (w h ct : Nat) : Except String (List Nat) :=
  let bpp := if ct = 0 then 1 else if ct = 2 then 3
             else if ct = 4 then 2 else if ct = 6 then 4 else 1
  match extractRows raw w h ct (w * bpp) with
  | none => Except.error "IndexError"
  | some data => decodeFramedPayload zd bd data

/-- The chunk-walking loop of `manual_png_decode` (lines 671-768). State:
current position and the width/height/bit-depth/color-type recorded by the
last IHDR chunk (initialised to 0, line 672-673). On IDAT the chunk body is
inflated with `zd` (`zlib.decompress`, line 687) and processed; on IEND the
loop breaks and the trailing `raise ValueError('IDAT-Chunk nicht
gefunden')` fires; unknown chunks are skipped by `pos += 12 + chunk_length`.
The fuel argument bounds the iteration count (see the header comment). -/
def chunkWalk (zd bd : List Nat → Except String (List Nat))
    (png : List Nat) : Nat → Nat → Nat → Nat → Nat → Nat →
    Except String (List Nat)
  | 0, _, _, _, _, _ => Except.error "IDAT-Chunk nicht gefunden"
  | fuel + 1, pos, w, h, bdep, ct =>
      if pos < png.length then
        match readBE32 png pos with
        | none => Except.error "struct.error"
        | some chunkLen =>
            if sliceL png (pos+4) (pos+8) = ihdrTag then
              match readBE32 png (pos+8), readBE32 png (pos+12),
                    png.get? (pos+16), png.get? (pos+17) with
              | some w2, some h2, some bd2, some ct2 =>
                  chunkWalk zd bd png fuel (pos + 12 + chunkLen) w2 h2 bd2 ct2
              | _, _, _, _ => Except.error "IndexError"
            else if sliceL png (pos+4) (pos+8) = idatTag then
              match zd (sliceL png (pos+8) (pos+8+chunkLen)) with
              | Except.error e => Except.error e
              | Except.ok raw => processIdat zd bd raw w h ct
            else if sliceL png (pos+4) (pos+8) = iendTag then
              Except.error "IDAT-Chunk nicht gefunden"
            else
              chunkWalk zd bd png fuel (pos + 12 + chunkLen) w h bdep ct
      else Except.error "IDAT-Chunk nicht gefunden"

/-- `manual_png_decode(png_data)` (lines 656-768). -/
def manual_png_decode (zd bd : List Nat → Except String (List Nat))
    (png : List Nat) : Except String (List Nat) :=
  if sliceL png 0 8 = pngSignature then
    chunkWalk zd bd png png.length 8 0 0 0 0
  else Except.error "Ungueltige PNG-Signatur"

/-- `png_data_to_bytes(png_data)` (lines 554-653). The whole
pypng-library-based branch (lines 574-649, available only when the optional
`png` module imports) is the collaborator parameter `primary`; the function
returns its result when it succeeds, and on ANY exception (line 651-653) —
including a `ValueError` from the checksum comparison of line 646-647 —
falls back to `manual_png_decode`. A missing `png` module is the instance
`primary = fun _ => Except.error "ImportError"`. -/
def png_data_to_bytes (primary zd bd : List Nat → Except String (List Nat))
    (png : List Nat) : Except String (List Nat) :=
  match primary png with
  | Except.ok b => Except.ok b
  | Except.error _ => manual_png_decode zd bd png

/-! ### Spec-side definitions used for comparison -/

/-- The first byte actually emitted by `apply_png_filter` for filter `t`:
the filter id itself except for filter 1 (Sub), whose branch writes the
literal `0`. -/
def filterTag (t : Nat) : Nat := if t = 1 then 0 else t

/-- First-minimum selection: the candidate minimizing `|p − c|`, ties
resolved in list order — the spec's wording of the Paeth choice ("choose
left/up/upLeft minimizing |p−candidate|, tie-break order left, then up,
then upLeft"). -/
def argminAbs (p : Int) (cands : List Nat) : Nat :=
  match cands with
  | [] => 0
  | c :: cs => cs.foldl (fun (best c2 : Nat) =>
      if (p - (c2 : Int)).natAbs < (p - (best : Int)).natAbs then c2 else best) c

/-- The per-position predictor as the spec's filter table states it
(§4.5): 0, left, up, ⌊(left+up)/2⌋, Paeth. `left`, `up`, `upLeft` are read
with the source's availability conditions (0 when out of range; the
source treats `upLeft` as unavailable whenever `i ≥ len(prev)`). -/
def specPredictor (row prev : List Nat) (t i : Nat) : Nat :=
  let left := if 0 < i then row.getD (i-1) 0 else 0
  let up := if i < prev.length then prev.getD i 0 else 0
  let upleft := if 0 < i ∧ i < prev.length then prev.getD (i-1) 0 else 0
  if t = 0 then 0
  else if t = 1 then left
  else if t = 2 then up
  else if t = 3 then (left + up) / 2
  else argminAbs ((left : Int) + (up : Int) - (upleft : Int)) [left, up, upleft]

/-- Modelled from the spec: the `unpack` inverse of the interleaved packing
(§4.4 — "splits the byte stream by position modulo 3 into three separate
channel buffers"; `unpack` "is the exact structural inverse"). The
repository has no such function; the decoder never reassembles the
channels. -/
def deinterleave3 (n : Nat) (r g b : List Nat) : List Nat :=
  (List.range n).map (fun i =>
    if i % 3 = 0 then r.getD (i/3) 0
    else if i % 3 = 1 then g.getD (i/3) 0
    else b.getD (i/3) 0)

/-! ### Concrete collaborator instances used in closed theorems -/

/-- Brotli compressor that always raises (never consulted by the claims
that use it). -/
def bcmpNone : List Nat → Option (List Nat) := fun _ => none

/-- Brotli decompressor that always raises. -/
def bdErr : List Nat → Except String (List Nat) := fun _ => Except.error "brotli"

/-- A compressor satisfying the collaborator contract together with
`zdWit`: prepends four zero bytes. -/
def zcWit : List Nat → List Nat := fun x => [0, 0, 0, 0] ++ x

/-- Decompressor inverting `zcWit`, failing (like `zlib.decompress`) on any
input shorter than a minimal stream. -/
def zdWit : List Nat → Except String (List Nat) := fun x =>
  if x.length ≤ 3 then Except.error "zlib.error" else Except.ok (x.drop 4)

instance : DecidableEq (Except String (List Nat)) := fun a b =>
  match a, b with
  | Except.error x, Except.error y =>
      if h : x = y then isTrue (by rw [h]) else
        isFalse (by intro hh; cases hh; exact h rfl)
  | Except.error _, Except.ok _ => isFalse (by intro hh; cases hh)
  | Except.ok _, Except.error _ => isFalse (by intro hh; cases hh)
  | Except.ok x, Except.ok y =>
      if h : x = y then isTrue (by rw [h]) else
        isFalse (by intro hh; cases hh; exact h rfl)

/-! ### Concrete containers and data used by closed theorems -/

/-- The framed payload of the encoder for input `[1, 2]`, color mode RGB,
file type mp3, interleaving on: no delta, no compression (id 255), so it is
independent of both compression backends. -/
def c1d : List Nat := le8 2 ++ le4 (crc32 [1, 2]) ++ [1, 255, 1] ++ [1, 2]

/-- First channel of the interleaved packing of `c1d` (positions 0 mod 3). -/
def c1R : List Nat := (List.range 6).map (fun k => c1d.getD (3*k) 0)

/-- Second channel of the interleaved packing of `c1d` (positions 1 mod 3). -/
def c1G : List Nat := (List.range 6).map (fun k => c1d.getD (3*k+1) 0)

/-- Third channel of the interleaved packing of `c1d` (positions 2 mod 3). -/
def c1B : List Nat := (List.range 6).map (fun k => c1d.getD (3*k+2) 0)

/-- The filtered pixel stream the encoder would emit for `c1d` when the
adaptive search picks filters `f0`, `f1`, `f2` for the three channel
rows. -/
def c1raw (f0 f1 f2 : Nat) : List Nat :=
  apply_png_filter c1R [] f0 ++ apply_png_filter c1G c1R f1 ++
  apply_png_filter c1B c1G f2

/-- The bytes the decoder's row extraction produces from `c1raw`. -/
def c1D (f0 f1 f2 : Nat) : List Nat :=
  (extractRows (c1raw f0 f1 f2) 6 3 0 6).getD []

/-- Decidable facts about the decoder's extracted bytes that hold for every
choice of the three per-row filters: extraction succeeds with 18 bytes and
the byte the decoder reads as the compression id is neither 255 nor 1, so
the payload decode always calls the zlib decompressor. -/
def c1P (f0 f1 f2 : Nat) : Prop :=
  extractRows (c1raw f0 f1 f2) 6 3 0 6 = some (c1D f0 f1 f2) ∧
  (c1D f0 f1 f2).length = 18 ∧
  (c1D f0 f1 f2).getD 13 0 ≠ 255 ∧ (c1D f0 f1 f2).getD 13 0 ≠ 1

/-- The container the encoder emits for input `[1, 2]`, grayscale, mp3,
with the identity as zlib compressor (every filter then ties at the same
size and filter 0 wins, and this container round-trips). -/
def c9png : List Nat := (bytes_to_png_data bcmpNone id [1, 2] false "mp3" true).1

/-- `c9png` with one bit flipped inside the IDAT chunk's CRC-32 trailer
(bytes 59-62 of the 75-byte container). -/
def c9bad : List Nat := c9png.set 59 (Nat.xor (c9png.getD 59 0) 1)

/-- The container the encoder emits for input `[1, 2]`, RGB interleaved,
mp3, with the identity as zlib compressor. -/
def c3png : List Nat := (bytes_to_png_data bcmpNone id [1, 2] true "mp3" true).1

/-- The bytes the decoder's row extraction produces from the interleaved
pixel stream of `c3png` (filter 0 on every row under the identity
compressor). -/
def c3D : List Nat :=
  (extractRows (interleavedRaw id (framedPayload bcmpNone id [1, 2] true "mp3" true))
    6 3 0 6).getD []

/-! ## Helper lemmas -/

theorem add8_sub8 (p x : Nat) (hx : x < 256) : add8 p (sub8 x p) = x := by
  unfold add8 sub8; omega

theorem sub8_zero (x : Nat) (hx : x < 256) : sub8 x 0 = x := by
  unfold sub8; omega

theorem deltaEncGo_length (p : Nat) (l : List Nat) :
    (deltaEncGo p l).length = l.length := by
  induction l generalizing p with
  | nil => rfl
  | cons x xs ih => simp [deltaEncGo, ih]

theorem deltaDecGo_length (p : Nat) (l : List Nat) :
    (deltaDecGo p l).length = l.length := by
  induction l generalizing p with
  | nil => rfl
  | cons x xs ih => simp [deltaDecGo, ih]

theorem deltaGo_roundtrip (p : Nat) (l : List Nat) (h : ∀ x ∈ l, x < 256) :
    deltaDecGo p (deltaEncGo p l) = l := by
  induction l generalizing p with
  | nil => rfl
  | cons x xs ih =>
      have hx : x < 256 := h x (by simp)
      simp only [deltaEncGo, deltaDecGo, add8_sub8 p x hx]
      exact congrArg (x :: ·) (ih x (fun y hy => h y (by simp [hy])))

theorem crcStep_lt (c : Nat) (h : c < 2^32) : crcStep c < 2^32 := by
  unfold crcStep
  split
  · exact Nat.xor_lt_two_pow (by omega) (by norm_num)
  · omega

theorem crcStep8_lt (c : Nat) (h : c < 2^32) : crcStep8 c < 2^32 := by
  unfold crcStep8
  iterate 8 apply crcStep_lt
  exact h

theorem crc32_lt (l : List Nat) : crc32 l < 2^32 := by
  unfold crc32
  have key : ∀ (m : List Nat) (c : Nat), c < 2^32 →
      m.foldl (fun c b => crcStep8 (Nat.xor c (b % 256))) c < 2^32 := by
    intro m
    induction m with
    | nil => intro c hc; exact hc
    | cons b bs ih =>
        intro c hc
        exact ih _ (crcStep8_lt _ (Nat.xor_lt_two_pow hc (by omega)))
  exact Nat.xor_lt_two_pow (key l _ (by norm_num)) (by norm_num)

theorem readLE32_at8 (a b : Nat) (rest : List Nat) (hb : b < 2^32) :
    readLE32 (le8 a ++ le4 b ++ rest) 8 = b := by
  have h : readLE32 (le8 a ++ le4 b ++ rest) 8 =
      b % 256 + b / 256 % 256 * 256 + b / 65536 % 256 * 65536 +
      b / 16777216 % 256 * 16777216 := rfl
  rw [h]; omega

theorem take_pref (xs ys : List Nat) (n : Nat) (h : xs.length = n) :
    (xs ++ ys).take n = xs := by
  subst h; exact List.take_left xs ys

theorem drop_pref (xs ys : List Nat) (n : Nat) (h : xs.length = n) :
    (xs ++ ys).drop n = ys := by
  subst h; exact List.drop_left xs ys

theorem sliceL_shift (l : List Nat) (a k : Nat) :
    sliceL l a (a + k) = (l.drop a).take k := by
  unfold sliceL
  rw [List.drop_take]
  congr 1
  omega

theorem sliceL_pref (xs tag ys : List Nat) (pos : Nat)
    (hp : xs.length = pos) (ht : tag.length = 4) :
    sliceL (xs ++ (tag ++ ys)) pos (pos + 4) = tag := by
  rw [sliceL_shift, drop_pref xs _ pos hp, ← ht, List.take_left]

theorem readBE32_pref (xs ys : List Nat) (v pos : Nat)
    (hp : xs.length = pos) (hv : v < 2^32) :
    readBE32 (xs ++ (be4 v ++ ys)) pos = some v := by
  unfold readBE32
  rw [sliceL_pref xs (be4 v) ys pos hp rfl]
  show some (((v / 16777216 % 256 * 256 + v / 65536 % 256) * 256 +
    v / 256 % 256) * 256 + v % 256) = some v
  exact congrArg some (by omega)

theorem get?_pref (xs : List Nat) (a : Nat) (ys : List Nat) (pos : Nat)
    (hp : xs.length = pos) : (xs ++ (a :: ys)).get? pos = some a := by
  subst hp
  rw [List.get?_append_right (Nat.le_refl _)]
  simp

theorem sliceL_body (xs body ys : List Nat) (pos : Nat)
    (hp : xs.length = pos) :
    sliceL (xs ++ (body ++ ys)) pos (pos + body.length) = body := by
  rw [sliceL_shift, drop_pref xs _ pos hp, List.take_left]

theorem sliceL_length_le (l : List Nat) (a b : Nat) :
    (sliceL l a b).length ≤ l.length - a := by
  unfold sliceL
  simp only [List.length_drop, List.length_take]
  omega

theorem map_getD_range (l : List Nat) :
    (List.range l.length).map (fun i => l.getD i 0) = l := by
  induction l with
  | nil => rfl
  | cons a l ih =>
      rw [List.length_cons, List.range_succ_eq_map, List.map_cons,
        List.map_map]
      simp only [List.getD_cons_zero]
      refine congrArg (a :: ·) ?_
      have hcong : List.map ((fun i => (a :: l).getD i 0) ∘ Nat.succ)
          (List.range l.length) =
          List.map (fun i => l.getD i 0) (List.range l.length) := by
        refine List.map_congr_left ?_
        intro i _
        simp [Function.comp, List.getD_cons_succ]
      rw [hcong, ih]

theorem apply_png_filter_length (row prev : List Nat) (t : Nat) :
    (apply_png_filter row prev t).length = row.length + 1 := by
  unfold apply_png_filter
  split
  · simp
  · split
    · simp
    · split
      · simp
      · split
        · simp
        · split
          · simp
          · simp

theorem paeth_eq (l u ul : Nat) :
    (if ((l:Int) + u - ul - l).natAbs ≤ ((l:Int) + u - ul - u).natAbs ∧
        ((l:Int) + u - ul - l).natAbs ≤ ((l:Int) + u - ul - ul).natAbs then l
     else if ((l:Int) + u - ul - u).natAbs ≤ ((l:Int) + u - ul - ul).natAbs
     then u else ul) =
    argminAbs ((l:Int) + (u:Int) - (ul:Int)) [l, u, ul] := by
  simp only [argminAbs, List.foldl]
  by_cases h1 : ((l:Int) + u - ul - u).natAbs < ((l:Int) + u - ul - l).natAbs
  · rw [if_pos h1]
    by_cases h2 : ((l:Int) + u - ul - ul).natAbs < ((l:Int) + u - ul - u).natAbs
    · rw [if_pos h2, if_neg (by omega), if_neg (by omega)]
    · rw [if_neg h2, if_neg (by omega), if_pos (by omega)]
  · rw [if_neg h1]
    by_cases h2 : ((l:Int) + u - ul - ul).natAbs < ((l:Int) + u - ul - l).natAbs
    · rw [if_pos h2, if_neg (by omega), if_neg (by omega)]
    · rw [if_neg h2,
        if_pos (show _ ∧ _ from ⟨by omega, by omega⟩)]

theorem fbf_chosen (cf : List Nat → List Nat) (row prev : List Nat) :
    ∃ t, t < 5 ∧
      (find_best_filter cf row prev).2.2 = some (apply_png_filter row prev t) := by
  simp only [find_best_filter, List.foldl, fbfStep]
  repeat' split
  all_goals first
  | exact ⟨0, by omega, rfl⟩
  | exact ⟨1, by omega, rfl⟩
  | exact ⟨2, by omega, rfl⟩
  | exact ⟨3, by omega, rfl⟩
  | exact ⟨4, by omega, rfl⟩

/-! ## Claim theorems -/

/-- Claim C8: delta round-trip. For every byte sequence `b` (elements are
byte values, i.e. below 256) `apply_delta_decoding (apply_delta_encoding_optimized b) = b`;
the encoder preserves the length of every input, and both functions return
inputs of length 0 or 1 unchanged. -/
theorem delta_roundtrip :
    (∀ b : List Nat, (∀ x ∈ b, x < 256) →
      apply_delta_decoding (apply_delta_encoding_optimized b) = b) ∧
    (∀ b : List Nat, (apply_delta_encoding_optimized b).length = b.length) ∧
    (∀ b : List Nat, b.length ≤ 1 →
      apply_delta_encoding_optimized b = b ∧ apply_delta_decoding b = b) := by
  refine ⟨?_, ?_, ?_⟩
  · intro b hb
    match b with
    | [] => rfl
    | [x] => rfl
    | d0 :: x :: xs =>
        have hlen : ¬ (d0 :: x :: xs).length ≤ 1 := by simp
        rw [apply_delta_encoding_optimized, if_neg hlen]
        have hlen2 : ¬ (d0 :: deltaEncGo d0 (x :: xs)).length ≤ 1 := by
          simp [deltaEncGo]
        rw [apply_delta_decoding, if_neg hlen2]
        exact congrArg (d0 :: ·)
          (deltaGo_roundtrip d0 (x :: xs) (fun y hy => hb y (by simp [hy])))
  · intro b
    match b with
    | [] => rfl
    | [x] => rfl
    | d0 :: x :: xs =>
        have hlen : ¬ (d0 :: x :: xs).length ≤ 1 := by simp
        rw [apply_delta_encoding_optimized, if_neg hlen]
        simp [deltaEncGo_length]
  · intro b hb
    constructor
    · rw [apply_delta_encoding_optimized.eq_def, if_pos hb]
    · rw [apply_delta_decoding.eq_def, if_pos hb]

/-- Witness for C8 at the concrete byte sequence `[3, 250, 7]`. -/
theorem delta_roundtrip_witness :
    apply_delta_decoding (apply_delta_encoding_optimized [3, 250, 7]) =
      [3, 250, 7] :=
  delta_roundtrip.1 [3, 250, 7] (by decide)

/-- Claim C2: the decode path's row reconstruction does NOT reverse the
filters. For filter id 2 (Up), row `[5]`, previous row `[3]`, the filtered
row is `[2, 2]`; feeding it through the decoder's row extraction yields
`[2]`, not the original `[5]`. -/
theorem decode_rows_do_not_unfilter :
    apply_png_filter [5] [3] 2 = [2, 2] ∧
    extractRows (apply_png_filter [5] [3] 2) 1 1 0 1 = some [2] ∧
    ([2] : List Nat) ≠ [5] := by decide

/-- Claim C5 (counterexample): `apply_png_filter` does not prefix the
filter id for id 1 (Sub); it emits the literal byte 0 (source line 258).
On row `[5]` the claim predicts `[1, 5]` but the function returns `[0, 5]`. -/
theorem filter_tag_cex :
    apply_png_filter [5] [] 1 = [0, 5] ∧
    apply_png_filter [5] [] 1 ≠ [1, 5] := by decide

/-- Claim C5 (amended): for every filter id `t < 5`, every row of byte
values and every previous row, `apply_png_filter` returns a first byte
equal to the filter id for ids 0, 2, 3, 4 but equal to 0 for id 1,
followed by `(row[i] − predictor_i) mod 256` with the predictors of the
spec's table (Paeth as the first minimum of `|p − candidate|` over left,
up, upLeft), where `up`/`upLeft` read as 0 when the previous row is too
short at that index. -/
theorem apply_png_filter_characterization (row prev : List Nat) (t : Fin 5)
    (h : ∀ x ∈ row, x < 256) :
    apply_png_filter row prev t.val =
      filterTag t.val :: (List.range row.length).map
        (fun i => sub8 (row.getD i 0) (specPredictor row prev t.val i)) := by
  fin_cases t
  · show (0 : Nat) :: row =
      (0 : Nat) :: (List.range row.length).map
        (fun i => sub8 (row.getD i 0) (specPredictor row prev 0 i))
    refine congrArg ((0 : Nat) :: ·) ?_
    have h1 : List.map (fun i => sub8 (row.getD i 0) (specPredictor row prev 0 i))
        (List.range row.length)
        = List.map (fun i => row.getD i 0) (List.range row.length) := by
      refine List.map_congr_left ?_
      intro i hi
      rw [List.mem_range] at hi
      refine sub8_zero _ (h _ ?_)
      rw [List.getD_eq_getElem row 0 hi]
      exact List.getElem_mem hi
    rw [h1, map_getD_range]
  · rfl
  · rfl
  · rfl
  · show (4 : Nat) :: (List.range row.length).map
        (fun i =>
          let left := if 0 < i then row.getD (i-1) 0 else 0
          let up := if i < prev.length then prev.getD i 0 else 0
          let upleft := if 0 < i ∧ i < prev.length then prev.getD (i-1) 0 else 0
          let p : Int := (left : Int) + (up : Int) - (upleft : Int)
          let pa := (p - left).natAbs
          let pb := (p - up).natAbs
          let pc := (p - upleft).natAbs
          sub8 (row.getD i 0)
            (if pa ≤ pb ∧ pa ≤ pc then left else if pb ≤ pc then up else upleft)) =
      (4 : Nat) :: (List.range row.length).map
        (fun i => sub8 (row.getD i 0) (specPredictor row prev 4 i))
    refine congrArg ((4 : Nat) :: ·) ?_
    refine List.map_congr_left ?_
    intro i _
    exact congrArg (sub8 (row.getD i 0)) (paeth_eq _ _ _)

/-- Witness for the amended C5 at filter id 4, row `[5, 7]`, previous row
`[3, 9]`. -/
theorem apply_png_filter_characterization_witness :
    apply_png_filter [5, 7] [3, 9] (4 : Fin 5).val =
      filterTag (4 : Fin 5).val :: (List.range ([5, 7] : List Nat).length).map
        (fun i => sub8 (([5, 7] : List Nat).getD i 0)
          (specPredictor [5, 7] [3, 9] (4 : Fin 5).val i)) :=
  apply_png_filter_characterization [5, 7] [3, 9] 4 (by decide)

/-- Claim C7 (counterexample): when every backend fails, the negotiator
returns `(None, 0)` — not the input data with compression id 255 as the
claim states. -/
theorem negotiator_all_fail_cex :
    compress_with_best_algorithm (fun _ => none) (fun _ => none) [1, 2, 3] "wav"
      = (none, 0) ∧
    ((none : Option (List Nat)), (0 : Nat)) ≠ (some [1, 2, 3], 255) := by
  decide

/-- Claim C7 (amended): for every non-mp3 payload, if every backend fails
the negotiator returns `None` paired with compression id 0; a failing
brotli backend while zlib succeeds is skipped without aborting, keeping the
zlib result with id 0. -/
theorem negotiator_failure_behavior :
    (∀ d : List Nat,
      compress_with_best_algorithm (fun _ => none) (fun _ => none) d "wav"
        = (none, 0)) ∧
    (∀ (d : List Nat) (zf : List Nat → List Nat),
      compress_with_best_algorithm (fun _ => none) (fun x => some (zf x)) d "wav"
        = (some (zf d), 0)) := by
  exact ⟨fun d => rfl, fun d zf => rfl⟩

/-- Claim C10 (counterexample): an integrity error raised in the primary
(library-based) decode path does not propagate: it is caught and decoding
is retried through the manual fallback path, which here succeeds. -/
theorem primary_error_retried_cex :
    png_data_to_bytes (fun _ => Except.error "Pruefsummenfehler")
      Except.ok bdErr c9png = Except.ok [1, 2] ∧
    (Except.ok ([1, 2] : List Nat) : Except String (List Nat)) ≠
      Except.error "Pruefsummenfehler" := by
  constructor
  · decide
  · decide

/-- Claim C10 (amended): any error of the primary decode path — integrity
errors included — is caught and decoding falls back to
`manual_png_decode`; only errors raised by the fallback propagate to the
caller. -/
theorem primary_failure_falls_back :
    (∀ (zd bd : List Nat → Except String (List Nat)) (png : List Nat)
      (e : String),
      png_data_to_bytes (fun _ => Except.error e) zd bd png =
        manual_png_decode zd bd png) ∧
    (∀ (zd bd : List Nat → Except String (List Nat)) (png : List Nat)
      (e msg : String),
      manual_png_decode zd bd png = Except.error msg →
      png_data_to_bytes (fun _ => Except.error e) zd bd png =
        Except.error msg) := by
  constructor
  · intro zd bd png e; rfl
  · intro zd bd png e msg hm
    rw [show png_data_to_bytes (fun _ => Except.error e) zd bd png =
      manual_png_decode zd bd png from rfl, hm]

/-- Claim C4 (counterexample): for the WAV input `[1, 2]` the checksum
field written into the embedded header is the CRC-32 of the delta-encoded
bytes `[1, 1]`, which differs from the CRC-32 of the original input. -/
theorem checksum_not_logical_cex :
    readLE32 (framedPayload bcmpNone id [1, 2] false "wav" true) 8 =
      crc32 (apply_delta_encoding_optimized [1, 2]) ∧
    readLE32 (framedPayload bcmpNone id [1, 2] false "wav" true) 8 ≠
      crc32 [1, 2] := by
  constructor
  · decide
  · decide

/-- Claim C4 (amended): for every payload and mode, the checksum field of
the embedded header is the CRC-32 of the payload after the delta pre-filter
(applied exactly for file type wav) and before compression; it equals the
CRC-32 of the original input only when no delta is applied. -/
theorem checksum_over_post_delta (bcmp : List Nat → Option (List Nat))
    (zc : List Nat → List Nat) (b : List Nat) (color : Bool) (ft : String)
    (inter : Bool) :
    readLE32 (framedPayload bcmp zc b color ft inter) 8 =
      crc32 (if ft = "wav" then apply_delta_encoding_optimized b else b) := by
  exact readLE32_at8 _ _ _ (crc32_lt _)

/-- The chunk walk of `manual_png_decode` on a well-formed container:
signature accepted, the IHDR chunk parsed into width/height/color-type,
the IDAT body inflated with the zlib decompressor and processed. The
data-chunk trailer (any 4 bytes) is never read. -/
theorem decode_assembled (zd bd : List Nat → Except String (List Nat))
    (w h ct : Nat) (body trailer : List Nat)
    (hw : w < 2^32) (hh : h < 2^32) (hb : body.length < 2^32)
    (ht : trailer.length = 4) :
    manual_png_decode zd bd (assemblePngT w h ct body trailer) =
      match zd body with
      | Except.error e => Except.error e
      | Except.ok raw => processIdat zd bd raw w h ct := by
  set n := body.length with hn
  set crcI := crc32 (ihdrTag ++ ihdrData w h ct) with hcrcI
  set png := assemblePngT w h ct body trailer with hpng
  have hlen : png.length = 57 + n := by
    rw [hpng]
    simp [assemblePngT, ihdrData, be4, pngSignature, ihdrTag, idatTag,
      iendTag, List.length_append, ht]
    omega
  have hsig : sliceL png 0 8 = pngSignature := by
    have e0 : png = pngSignature ++
        ((be4 13 ++ ihdrTag ++ ihdrData w h ct ++ be4 crcI) ++
         ((be4 n ++ idatTag ++ body ++ trailer) ++
          (be4 0 ++ iendTag ++ be4 (crc32 iendTag)))) := by
      rw [hpng]; simp [assemblePngT, List.append_assoc]
    rw [e0]
    unfold sliceL
    rw [List.drop_zero]
    exact take_pref _ _ 8 rfl
  have r1 : readBE32 png 8 = some 13 := by
    have e : png = pngSignature ++ (be4 13 ++
        (ihdrTag ++ ihdrData w h ct ++ be4 crcI ++
         (be4 n ++ idatTag ++ body ++ trailer) ++
         (be4 0 ++ iendTag ++ be4 (crc32 iendTag)))) := by
      rw [hpng]; simp [assemblePngT, List.append_assoc]
    rw [e]
    exact readBE32_pref _ _ 13 8 rfl (by norm_num)
  have r2 : sliceL png 12 16 = ihdrTag := by
    have e : png = (pngSignature ++ be4 13) ++ (ihdrTag ++
        (ihdrData w h ct ++ be4 crcI ++
         (be4 n ++ idatTag ++ body ++ trailer) ++
         (be4 0 ++ iendTag ++ be4 (crc32 iendTag)))) := by
      rw [hpng]; simp [assemblePngT, List.append_assoc]
    rw [e]
    exact sliceL_pref _ _ _ 12 rfl rfl
  have r3 : readBE32 png 16 = some w := by
    have e : png = (pngSignature ++ be4 13 ++ ihdrTag) ++ (be4 w ++
        (be4 h ++ [8, ct, 0, 0, 0] ++ be4 crcI ++
         (be4 n ++ idatTag ++ body ++ trailer) ++
         (be4 0 ++ iendTag ++ be4 (crc32 iendTag)))) := by
      rw [hpng]; simp [assemblePngT, ihdrData, List.append_assoc, hcrcI]
    rw [e]
    exact readBE32_pref _ _ w 16 rfl hw
  have r4 : readBE32 png 20 = some h := by
    have e : png = (pngSignature ++ be4 13 ++ ihdrTag ++ be4 w) ++ (be4 h ++
        ([8, ct, 0, 0, 0] ++ be4 crcI ++
         (be4 n ++ idatTag ++ body ++ trailer) ++
         (be4 0 ++ iendTag ++ be4 (crc32 iendTag)))) := by
      rw [hpng]; simp [assemblePngT, ihdrData, List.append_assoc, hcrcI]
    rw [e]
    exact readBE32_pref _ _ h 20 rfl hh
  have r5 : png.get? 24 = some 8 := by
    have e : png = (pngSignature ++ be4 13 ++ ihdrTag ++ be4 w ++ be4 h) ++
        ((8 : Nat) :: (ct :: 0 :: 0 :: 0 :: (be4 crcI ++
         (be4 n ++ idatTag ++ body ++ trailer) ++
         (be4 0 ++ iendTag ++ be4 (crc32 iendTag))))) := by
      rw [hpng]; simp [assemblePngT, ihdrData, List.append_assoc, hcrcI]
    rw [e]
    exact get?_pref _ 8 _ 24 rfl
  have r6 : png.get? 25 = some ct := by
    have e : png = (pngSignature ++ be4 13 ++ ihdrTag ++ be4 w ++ be4 h ++ [8]) ++
        (ct :: (0 :: 0 :: 0 :: (be4 crcI ++
         (be4 n ++ idatTag ++ body ++ trailer) ++
         (be4 0 ++ iendTag ++ be4 (crc32 iendTag))))) := by
      rw [hpng]; simp [assemblePngT, ihdrData, List.append_assoc, hcrcI]
    rw [e]
    exact get?_pref _ ct _ 25 rfl
  have r7 : readBE32 png 33 = some n := by
    have e : png = (pngSignature ++ (be4 13 ++ ihdrTag ++ ihdrData w h ct ++
        be4 crcI)) ++ (be4 n ++
        (idatTag ++ body ++ trailer ++
         (be4 0 ++ iendTag ++ be4 (crc32 iendTag)))) := by
      rw [hpng]; simp [assemblePngT, List.append_assoc]
    rw [e]
    refine readBE32_pref _ _ n 33 ?_ (by omega)
    simp [pngSignature, ihdrTag, ihdrData, be4]
  have r8 : sliceL png 37 41 = idatTag := by
    have e : png = (pngSignature ++ (be4 13 ++ ihdrTag ++ ihdrData w h ct ++
        be4 crcI) ++ be4 n) ++ (idatTag ++
        (body ++ trailer ++ (be4 0 ++ iendTag ++ be4 (crc32 iendTag)))) := by
      rw [hpng]; simp [assemblePngT, List.append_assoc]
    rw [e]
    refine sliceL_pref _ _ _ 37 ?_ rfl
    simp [pngSignature, ihdrTag, ihdrData, be4]
  have r9 : sliceL png 41 (41 + n) = body := by
    have e : png = (pngSignature ++ (be4 13 ++ ihdrTag ++ ihdrData w h ct ++
        be4 crcI) ++ be4 n ++ idatTag) ++ (body ++
        (trailer ++ (be4 0 ++ iendTag ++ be4 (crc32 iendTag)))) := by
      rw [hpng]; simp [assemblePngT, List.append_assoc]
    rw [e, hn]
    refine sliceL_body _ _ _ 41 ?_
    simp [pngSignature, ihdrTag, ihdrData, be4, idatTag]
  have r5b : png[24]? = some 8 := by rw [← List.get?_eq_getElem?]; exact r5
  have r6b : png[25]? = some ct := by rw [← List.get?_eq_getElem?]; exact r6
  rw [manual_png_decode, hsig, if_pos rfl, hlen,
    show 57 + n = (56 + n) + 1 from by omega, chunkWalk]
  rw [if_pos (show 8 < png.length from by rw [hlen]; omega)]
  rw [r1]
  show (if sliceL png (8+4) (8+8) = ihdrTag then _ else _) = _
  norm_num
  rw [r2, if_pos rfl, r3, r4]
  rw [r5b, r6b]
  show chunkWalk zd bd png (56 + n) (8 + 12 + 13) w h 8 ct = _
  rw [show 56 + n = (55 + n) + 1 from by omega, chunkWalk]
  rw [if_pos (show 8 + 12 + 13 < png.length from by rw [hlen]; omega)]
  norm_num
  rw [r7]
  show (if sliceL png 37 41 = ihdrTag then _ else _) = _
  rw [r8, if_neg (show ¬ (idatTag = ihdrTag) from by decide), if_pos rfl, r9]

instance (f0 f1 f2 : Nat) : Decidable (c1P f0 f1 f2) := by
  unfold c1P; infer_instance

/-- If the decoder's extracted bytes have length 18 and record a
compression id other than 255 and 1, the payload decode hands the zlib
decompressor a slice of at most 3 bytes; a decompressor that rejects such
short inputs therefore makes the whole decode fail. -/
theorem decodeFramed_ne_ok (zd bd : List Nat → Except String (List Nat))
    (D y : List Nat) (hlen : D.length = 18)
    (h255 : D.getD 13 0 ≠ 255) (h1 : D.getD 13 0 ≠ 1)
    (hshort : ∀ x z, x.length ≤ 3 → zd x ≠ Except.ok z) :
    decodeFramedPayload zd bd D ≠ Except.ok y := by
  have hca : (sliceL D 15 (15 + readLE64 D 0)).length ≤ 3 := by
    have := sliceL_length_le D 15 (15 + readLE64 D 0)
    omega
  simp only [decodeFramedPayload]
  rw [if_neg (by omega : ¬ D.length < 15), if_neg h255, if_neg h1]
  cases he : zd (sliceL D 15 (15 + readLE64 D 0)) with
  | error e => simp [he]
  | ok z => exact absurd he (hshort _ _ hca)

/-- Claim C6: for every payload the negotiator returns `(data, 255)` under
the mp3 hint, and for every extracted byte stream recording compression id
255 the payload decode is independent of both decompressors — it uses the
stored bytes directly and never invokes any decompressor on them. -/
theorem mp3_none_no_decompress :
    (∀ (bc zcmp : List Nat → Option (List Nat)) (d : List Nat),
      compress_with_best_algorithm bc zcmp d "mp3" = (some d, 255)) ∧
    (∀ data : List Nat, data.getD 13 0 = 255 →
      ∀ zd bd zd2 bd2 : List Nat → Except String (List Nat),
        decodeFramedPayload zd bd data = decodeFramedPayload zd2 bd2 data) := by
  constructor
  · intro bc zcmp d; rfl
  · intro data h13 zd bd zd2 bd2
    simp only [decodeFramedPayload]
    split
    · rfl
    · rfl

/-- Witness for C6 at the concrete mp3 payload `[7]`: the payload decode
gives the same result with working decompressors as with decompressors
that always fail. -/
theorem mp3_none_no_decompress_witness :
    decodeFramedPayload Except.ok bdErr
      (framedPayload bcmpNone id [7] false "mp3" false) =
    decodeFramedPayload (fun _ => Except.error "zlib")
      (fun _ => Except.error "brotli")
      (framedPayload bcmpNone id [7] false "mp3" false) :=
  mp3_none_no_decompress.2 (framedPayload bcmpNone id [7] false "mp3" false)
    rfl Except.ok bdErr (fun _ => Except.error "zlib")
    (fun _ => Except.error "brotli")

/-- Claim C9 (amended): the decoder never recomputes or checks the data
chunk's CRC-32 trailer — the decode result is unchanged under arbitrary
replacement of the trailer's four bytes; integrity relies solely on the
embedded payload checksum. -/
theorem decode_ignores_data_chunk_trailer
    (zd bd : List Nat → Except String (List Nat)) (w h ct : Nat)
    (body : List Nat) (c0 c1 c2 c3 d0 d1 d2 d3 : Nat)
    (hw : w < 2^32) (hh : h < 2^32) (hb : body.length < 2^32) :
    manual_png_decode zd bd (assemblePngT w h ct body [c0, c1, c2, c3]) =
    manual_png_decode zd bd (assemblePngT w h ct body [d0, d1, d2, d3]) := by
  rw [decode_assembled zd bd w h ct body [c0, c1, c2, c3] hw hh hb rfl,
    decode_assembled zd bd w h ct body [d0, d1, d2, d3] hw hh hb rfl]

/-- Witness for the amended C9 on a concrete 1-pixel container. -/
theorem decode_ignores_data_chunk_trailer_witness :
    manual_png_decode Except.ok bdErr (assemblePngT 1 1 0 [0] [0, 0, 0, 0]) =
    manual_png_decode Except.ok bdErr (assemblePngT 1 1 0 [0] [9, 9, 9, 9]) :=
  decode_ignores_data_chunk_trailer Except.ok bdErr 1 1 0 [0] 0 0 0 0 9 9 9 9
    (by norm_num) (by norm_num) (by norm_num)

/-- Claim C9 (counterexample): `c9bad` differs from the encoder's
container `c9png` in exactly one bit inside the IDAT CRC-32 trailer
(bytes 59-62), so its trailer no longer matches the CRC-32 of
`typeTag || data`; decode nevertheless succeeds and returns the payload —
the chunk trailers are not recomputed or checked on read. -/
theorem chunk_crc_not_checked_cex :
    manual_png_decode Except.ok bdErr c9bad = Except.ok [1, 2] ∧
    sliceL c9bad 59 63 ≠ be4 (crc32 (idatTag ++ sliceL c9bad 41 59)) ∧
    sliceL c9bad 0 59 = sliceL c9png 0 59 ∧
    sliceL c9bad 63 75 = sliceL c9png 63 75 ∧
    c9bad ≠ c9png ∧
    manual_png_decode Except.ok bdErr c9png = Except.ok [1, 2] := by
  refine ⟨by decide, by decide, by decide, by decide, by decide, by decide⟩

/-- Claim C3: the decoder never reverses the channel interleaving. On the
container encoded from `[1, 2]` with the interleaved flag recorded as set
(and the identity as zlib, under which filter 0 wins every row), decode
fails with a length error instead of returning `[1, 2]`; the spec-modelled
`deinterleave3` applied to the three extracted channel rows would have
reproduced the framed byte stream exactly. -/
theorem decode_ignores_interleaving :
    manual_png_decode Except.ok bdErr c3png = Except.error "Laengenkollision" ∧
    manual_png_decode Except.ok bdErr c3png ≠ Except.ok [1, 2] ∧
    extractRows (interleavedRaw id (framedPayload bcmpNone id [1, 2] true "mp3" true))
      6 3 0 6 = some c3D ∧
    deinterleave3 17 (sliceL c3D 0 6) (sliceL c3D 6 12) (sliceL c3D 12 18) =
      framedPayload bcmpNone id [1, 2] true "mp3" true := by
  refine ⟨by decide, by decide, by decide, by decide⟩

/-- Claim C1: the round-trip identity fails. For the input `[1, 2]` in RGB
interleaved mode with the mp3 hint, and ANY zlib compressor/decompressor
pair satisfying the collaborator contract (decompression inverts
compression; inputs of at most 3 bytes — shorter than any deflate stream —
are rejected; outputs of small inputs fit in a u32 length field), decoding
the encoded container never returns `[1, 2]`, whichever filters the
adaptive per-row search picks: the decoder neither reverses the per-row
filters nor the interleaving. -/
theorem roundtrip_fails_interleaved
    (bcmp : List Nat → Option (List Nat)) (zc : List Nat → List Nat)
    (zd bd : List Nat → Except String (List Nat))
    (hinv : ∀ x, zd (zc x) = Except.ok x)
    (hshort : ∀ x y, x.length ≤ 3 → zd x ≠ Except.ok y)
    (hsize : ∀ x, x.length ≤ 100 → (zc x).length < 2^32) :
    manual_png_decode zd bd (bytes_to_png_data bcmp zc [1, 2] true "mp3" true).1 ≠
      Except.ok [1, 2] := by
  have hfr : framedPayload bcmp zc [1, 2] true "mp3" true = c1d := rfl
  have henc : (bytes_to_png_data bcmp zc [1, 2] true "mp3" true).1 =
      assemblePngT 6 3 0 (zc (interleavedRaw zc c1d))
        (be4 (crc32 (idatTag ++ zc (interleavedRaw zc c1d)))) := by
    simp only [bytes_to_png_data, hfr]
    norm_num [show c1d.length = 17 from rfl]
  obtain ⟨f0, hf0, e0⟩ := fbf_chosen zc c1R []
  obtain ⟨f1, hf1, e1⟩ := fbf_chosen zc c1G c1R
  obtain ⟨f2, hf2, e2⟩ := fbf_chosen zc c1B c1G
  have hIR0 : interleavedRaw zc c1d =
      (find_best_filter zc c1R []).2.2.getD [] ++
      (find_best_filter zc c1G c1R).2.2.getD [] ++
      (find_best_filter zc c1B c1G).2.2.getD [] := rfl
  have hIR : interleavedRaw zc c1d = c1raw f0 f1 f2 := by
    rw [hIR0, e0, e1, e2]
    rfl
  have hlen21 : (c1raw f0 f1 f2).length = 21 := by
    simp [c1raw, apply_png_filter_length, c1R, c1G, c1B]
  have hfinal := decode_assembled zd bd 6 3 0 (zc (c1raw f0 f1 f2))
    (be4 (crc32 (idatTag ++ zc (c1raw f0 f1 f2)))) (by norm_num) (by norm_num)
    (hsize _ (by rw [hlen21]; omega)) rfl
  rw [henc, hIR, hfinal, hinv (c1raw f0 f1 f2)]
  have hP : ∀ a, a < 5 → ∀ b, b < 5 → ∀ c, c < 5 → c1P a b c := by decide
  obtain ⟨hx, hl18, h255, h1⟩ := hP f0 hf0 f1 hf1 f2 hf2
  show processIdat zd bd (c1raw f0 f1 f2) 6 3 0 ≠ Except.ok [1, 2]
  simp only [processIdat]
  norm_num
  rw [hx]
  exact decodeFramed_ne_ok zd bd _ _ hl18 h255 h1 hshort

/-- Witness for C1 with the concrete collaborator pair `zcWit`/`zdWit`. -/
theorem roundtrip_fails_interleaved_witness :
    manual_png_decode zdWit bdErr
      (bytes_to_png_data bcmpNone zcWit [1, 2] true "mp3" true).1 ≠
      Except.ok [1, 2] := by
  refine roundtrip_fails_interleaved bcmpNone zcWit zdWit bdErr ?_ ?_ ?_
  · intro x
    simp only [zdWit, zcWit]
    rw [if_neg (by simp), drop_pref [0, 0, 0, 0] x 4 rfl]
  · intro x y hx
    simp only [zdWit]
    rw [if_pos hx]
    intro hcontra
    exact Except.noConfusion hcontra
  · intro x hx
    simp only [zcWit, List.length_append]
    have : x.length ≤ 100 := hx
    norm_num
    omega

/-- Witness for the amended C10: an error of the empty input propagates
from the fallback decoder through `png_data_to_bytes`. -/
theorem primary_failure_falls_back_witness :
    png_data_to_bytes (fun _ => Except.error "FormatError") Except.ok bdErr []
      = Except.error "Ungueltige PNG-Signatur" :=
  primary_failure_falls_back.2 Except.ok bdErr [] "FormatError"
    "Ungueltige PNG-Signatur" rfl
